import Mathlib

/-!
Verification of the transaction-analytics pipeline in src/main.py
(flask_analyse). The Python core is shallowly embedded: records are
explicit optional-field structures, pandas columns become per-row
fields computed with the same batch-level fallbacks the code uses,
monetary values are exact rationals, and the two uncaught exceptions
the code can raise (a groupby KeyError on a missing raw column and the
IndexError-style KeyError from mode()[0] on an empty mode) are modelled
with an Except value. Python set iteration order (used by
extract_azv_entities) is unspecified, so the pipeline is parameterised
by a selection function on the canonical first-appearance enumeration
of the distinct fragments; a valid selection returns some element of
the list exactly when it is nonempty.
-/

namespace FlaskAnalyse

/-- Raw JSON scalar as it appears in a record field: a number or a string.
Models the loosely typed values pandas sees in the flattened columns. -/
inductive RawVal where
  | num (q : ℚ)
  | str (s : String)
deriving DecidableEq

/-- One raw input record, flattened along the dotted paths the code reads
(transactionAmount.amount, transactionAmount.currency, bookingDate,
creditorName, debtorName, remittanceInformationUnstructured,
creditorAccount.iban). A none field means the key is absent from the
record. extraKeys records whether the record carries any key outside
these seven; such keys are otherwise ignored but they do create columns,
which matters for the df.empty check. -/
structure Record where
  amountRaw : Option RawVal
  currencyRaw : Option String
  bookingDateRaw : Option String
  creditorName : Option String
  debtorName : Option String
  remittance : Option String
  iban : Option String
  extraKeys : Bool
deriving DecidableEq

/-- A record with no keys at all; json_normalize gives it no columns. -/
def Record.emptyRec : Record :=
  { amountRaw := none, currencyRaw := none, bookingDateRaw := none,
    creditorName := none, debtorName := none, remittance := none,
    iban := none, extraKeys := false }

/-- True when the record contributes no column to the flattened frame. -/
def recordHasNoKeys (r : Record) : Bool := r = Record.emptyRec

/-- Python str.strip character class (ASCII whitespace as used here). -/
def isSpaceChar (c : Char) : Bool :=
  c = ' ' || c = '\t' || c = '\n' || c = '\r' || c = '\x0b' || c = '\x0c'

/-- Python str.strip: drop leading and trailing whitespace. -/
def pyStrip (s : String) : String :=
  String.mk (((s.toList.dropWhile isSpaceChar).reverse.dropWhile isSpaceChar).reverse)

/-- Value of a digit list, most significant first (digits only). -/
def natOfDigits (cs : List Char) : ℕ :=
  cs.foldl (fun a c => a * 10 + (c.toNat - 48)) 0

def allDigits (cs : List Char) : Bool := cs.all (fun c => c.isDigit)

/-- Decimal literal without sign: digits, optionally with one dot,
at least one digit overall. Models the numeric strings accepted by
pd.to_numeric for the plain decimal forms used in this data. -/
def parseUnsigned (cs : List Char) : Option ℚ :=
  let intd := cs.takeWhile (fun c => c ≠ '.')
  match cs.drop intd.length with
  | [] => if !intd.isEmpty && allDigits intd then some (natOfDigits intd) else none
  | _ :: fracd =>
      if (!intd.isEmpty || !fracd.isEmpty) && allDigits intd && allDigits fracd then
        some ((natOfDigits intd : ℚ) + (natOfDigits fracd : ℚ) / (10 : ℚ) ^ fracd.length)
      else none

/-- pd.to_numeric(..., errors="coerce") on a string: optional sign and
decimal digits, surrounding whitespace tolerated; anything else is NaN
(none). Exponent forms are outside the modelled input language. -/
def parseNumber (s : String) : Option ℚ :=
  match (pyStrip s).toList with
  | [] => none
  | '+' :: cs => parseUnsigned cs
  | '-' :: cs => (parseUnsigned cs).map (fun q => -q)
  | cs => parseUnsigned cs

/-- Numeric coercion of a raw field value. -/
def RawVal.toNum : RawVal → Option ℚ
  | .num q => some q
  | .str s => parseNumber s

def isLeap (y : ℕ) : Bool := (y % 4 = 0 && y % 100 ≠ 0) || y % 400 = 0

def daysInMonth (y : ℕ) (m : ℕ) : ℕ :=
  [31, if isLeap y then 29 else 28, 31, 30, 31, 30, 31, 31, 30, 31, 30, 31].getD (m - 1) 0

/-- Days since 1970-01-01 of a civil date (proleptic Gregorian); the
standard era-based algorithm, used here only for years where all
intermediate quantities are nonnegative. -/
def daysFromCivil (y m d : ℤ) : ℤ :=
  let yy := if m ≤ 2 then y - 1 else y
  let era := yy / 400
  let yoe := yy - era * 400
  let mp := if 2 < m then m - 3 else m + 9
  let doy := (153 * mp + 2) / 5 + d - 1
  let doe := yoe * 365 + yoe / 4 - yoe / 100 + doy
  era * 146097 + doe - 719468

/-- Inverse of daysFromCivil: (year, month, day) of an epoch day count. -/
def civilFromDays (z0 : ℤ) : ℤ × ℤ × ℤ :=
  let z := z0 + 719468
  let era := z / 146097
  let doe := z - era * 146097
  let yoe := (doe - doe / 1460 + doe / 36524 - doe / 146096) / 365
  let y := yoe + era * 400
  let doy := doe - (365 * yoe + yoe / 4 - yoe / 100)
  let mp := (5 * doy + 2) / 153
  let d := doy - (153 * mp + 2) / 5 + 1
  let m := if mp < 10 then mp + 3 else mp - 9
  (if m ≤ 2 then y + 1 else y, m, d)

/-- Split a character list on a separator character. -/
def splitOnChar (sep : Char) : List Char → List (List Char)
  | [] => [[]]
  | c :: cs =>
    if c = sep then [] :: splitOnChar sep cs
    else
      match splitOnChar sep cs with
      | g :: gs => (c :: g) :: gs
      | [] => [[c]]

def parsedNat (cs : List Char) : Option ℕ :=
  if !cs.isEmpty && allDigits cs then some (natOfDigits cs) else none

/-- First representable pandas Timestamp midnight (1677-09-22). -/
def tsMin : ℤ := daysFromCivil 1677 9 22
/-- Last representable pandas Timestamp date (2262-04-11). -/
def tsMax : ℤ := daysFromCivil 2262 4 11

/-- pd.to_datetime(..., errors="coerce") restricted to the ISO
YYYY-MM-DD date literals this pipeline is fed: a calendar-valid date
inside the pandas Timestamp range parses to its epoch day number,
anything else coerces to NaT (none). -/
def parseDateISO (s : String) : Option ℤ :=
  match splitOnChar '-' (pyStrip s).toList with
  | [ys, ms, ds] =>
    match parsedNat ys, parsedNat ms, parsedNat ds with
    | some y, some m, some d =>
      if ys.length = 4 && 1 ≤ m && m ≤ 12 && 1 ≤ d && d ≤ daysInMonth y m then
        let z := daysFromCivil (y : ℤ) (m : ℤ) (d : ℤ)
        if tsMin ≤ z && z ≤ tsMax then some z else none
      else none
    | _, _, _ => none
  | _ => none

def weekdayNames : List String :=
  ["Monday", "Tuesday", "Wednesday", "Thursday", "Friday", "Saturday", "Sunday"]

/-- pandas Series.dt.day_name for an epoch day number (1970-01-01 was a
Thursday). -/
def dayName (z : ℤ) : String := weekdayNames.getD ((z + 3) % 7).toNat ""

def pad2 (n : ℤ) : String := if n < 10 then "0" ++ toString n else toString n

/-- strftime("%Y-%m-%d") of an epoch day number. -/
def fmtDate (z : ℤ) : String :=
  let c := civilFromDays z
  toString c.1 ++ "-" ++ pad2 c.2.1 ++ "-" ++ pad2 c.2.2

/-- Scan for the regex AZV-([^,]+): at each position, if the literal
marker AZV- is followed by at least one non-comma character, capture the
maximal non-comma run and resume after it; otherwise advance one
position. The fuel argument bounds the number of steps by the string
length, every step consuming at least one character. -/
def azvScanAux : ℕ → List Char → List String
  | 0, _ => []
  | _ + 1, [] => []
  | n + 1, s =>
    if s.take 4 = ['A', 'Z', 'V', '-'] then
      let rest := s.drop 4
      let frag := rest.takeWhile (fun ch => ch ≠ ',')
      if frag.isEmpty then azvScanAux n (s.drop 1)
      else String.mk frag :: azvScanAux n (s.drop (4 + frag.length))
    else azvScanAux n (s.drop 1)

/-- re.findall(r'AZV-([^,]+)', s): the raw captures in match order. -/
def azvMatches (s : String) : List String :=
  azvScanAux s.toList.length s.toList

/-- First-appearance deduplication with an accumulator of seen values. -/
def dedupFAAux (seen : List String) : List String → List String
  | [] => []
  | x :: xs => if x ∈ seen then dedupFAAux seen xs else x :: dedupFAAux (x :: seen) xs

/-- Keep the first occurrence of each value, preserving order. -/
def dedupFA (l : List String) : List String := dedupFAAux [] l

/-- extract_azv_entities from src/main.py: the set comprehension
{m.strip() for m in matches if m.strip()} is represented by its
canonical first-appearance enumeration; a non-string (absent) input
yields the empty list. The order in which Python enumerates the set is
unspecified and is supplied separately by a selection function. -/
def extract_azv_entities (rem : Option String) : List String :=
  match rem with
  | none => []
  | some s => dedupFA ((azvMatches s).map pyStrip |>.filter (fun f => f ≠ ""))

/-- A selection function models list(set)[0]: on the canonical
enumeration of a set it returns none exactly for the empty set and
otherwise some member. -/
def ValidPick (pick : List String → Option String) : Prop :=
  ∀ l : List String, (pick l = none ↔ l = []) ∧ (∀ c, pick l = some c → c ∈ l)

/-- One normalized transaction (a row of the working DataFrame after the
derived columns are assigned). -/
structure Tx where
  amount : ℚ
  currency : Option String
  amountRaw : Option RawVal
  currencyRaw : Option String
  date : Option ℤ
  creditorName : Option String
  debtorName : Option String
  remittance : Option String
  iban : Option String
  counterparty : Option String
deriving DecidableEq

/-- A default transaction, convenient for building concrete test rows. -/
def txBase : Tx :=
  { amount := 0, currency := none, amountRaw := none, currencyRaw := none,
    date := none, creditorName := none, debtorName := none,
    remittance := none, iban := none, counterparty := none }

/-- Row normalization. currencyColMissing says whether the raw currency
column is absent from the whole batch: df.get with a scalar default
returns the column when it exists (leaving per-row gaps as NaN) and the
scalar for every row only when it does not. -/
def normalizeRecord (currencyColMissing : Bool) (r : Record) : Tx :=
  { amount := (r.amountRaw.bind RawVal.toNum).getD 0
    currency := if currencyColMissing then some "BGN" else r.currencyRaw
    amountRaw := r.amountRaw
    currencyRaw := r.currencyRaw
    date := r.bookingDateRaw.bind parseDateISO
    creditorName := r.creditorName
    debtorName := r.debtorName
    remittance := r.remittance
    iban := r.iban
    counterparty := none }

/-- Batch normalization (lines 45-48 of src/main.py). -/
def normalize (rows : List Record) : List Tx :=
  rows.map (normalizeRecord (rows.all (fun r => r.currencyRaw = none)))

/-- pd.notna(x) and str(x).strip() truthiness on an optional name. -/
def nonBlankB (o : Option String) : Bool :=
  match o with
  | some s => pyStrip s ≠ ""
  | none => false

/-- Name-field resolution (lines 60-71): incoming prefers debtor then
creditor, outgoing prefers creditor then debtor, amount zero matches
neither branch and yields nothing. -/
def resolveName (t : Tx) : Option String :=
  if 0 < t.amount then
    if nonBlankB t.debtorName then t.debtorName
    else if nonBlankB t.creditorName then t.creditorName
    else none
  else if t.amount < 0 then
    if nonBlankB t.creditorName then t.creditorName
    else if nonBlankB t.debtorName then t.debtorName
    else none
  else none

/-- Full counterparty resolution for one row (lines 52-79): name fields
first, then the AZV fallback, taking element zero of the set
enumeration chosen by pick when the set is nonempty. -/
def resolveTx (pick : List String → Option String) (t : Tx) : Tx :=
  let c :=
    match resolveName t with
    | some c => some c
    | none =>
      let ex := extract_azv_entities t.remittance
      if ex.isEmpty then none else pick ex
  { t with counterparty := c }

def resolveAll (pick : List String → Option String) (ts : List Tx) : List Tx :=
  ts.map (resolveTx pick)

/-- Derived type column: income iff the amount is strictly positive. -/
def txType (t : Tx) : String := if 0 < t.amount then "income" else "expense"

def totalIncome (ts : List Tx) : ℚ :=
  ((ts.filter (fun t => txType t = "income")).map Tx.amount).sum

def totalExpense (ts : List Tx) : ℚ :=
  ((ts.filter (fun t => txType t = "expense")).map Tx.amount).sum

def netResult (ts : List Tx) : ℚ := (ts.map Tx.amount).sum

/-- Round-half-to-even to an integer, as Python round does. -/
def rheZ (q : ℚ) : ℤ :=
  let f := ⌊q⌋
  let r := q - f
  if r < 1 / 2 then f
  else if 1 / 2 < r then f + 1
  else if f % 2 = 0 then f else f + 1

/-- round(x, 2) on an exact rational. -/
def roundq2 (q : ℚ) : ℚ := (rheZ (q * 100) : ℚ) / 100

noncomputable def rheR (x : ℝ) : ℤ :=
  let f := ⌊x⌋
  if x - f < 1 / 2 then f
  else if 1 / 2 < x - f then f + 1
  else if f % 2 = 0 then f else f + 1

/-- round(x, 2) on a real quantity (standard-deviation derived values). -/
noncomputable def round2R (x : ℝ) : ℝ := (rheR (x * 100) : ℝ) / 100

/-- Lexicographic comparison of character lists by code point, the
order Python and numpy use on strings. -/
def charListLe : List Char → List Char → Bool
  | [], _ => true
  | _ :: _, [] => false
  | c :: cs, d :: ds =>
      if c.toNat < d.toNat then true
      else if d.toNat < c.toNat then false
      else charListLe cs ds

def strLeB (a b : String) : Bool := charListLe a.toList b.toList

def qmean (l : List ℚ) : ℚ := l.sum / l.length

def amountsOf (g : List Tx) : List ℚ := g.map Tx.amount

/-- Distinct counterparties in groupby key order: pandas groupby sorts
its keys ascending and drops rows whose key is null. -/
def gbKeys (ts : List Tx) : List String :=
  List.insertionSort (fun a b : String => strLeB a b = true)
    (dedupFA (ts.filterMap Tx.counterparty))

/-- The rows of one counterparty group, in original table order. -/
def groupOf (ts : List Tx) (k : String) : List Tx :=
  ts.filter (fun t => t.counterparty = some k)

/-- Top counterparties by summed amount (lines 94-98): per-key sums in
groupby key order, sorted descending by value, first five kept. -/
def top_debtors (ts : List Tx) : List (String × ℚ) :=
  (List.insertionSort (fun a b : String × ℚ => b.2 ≤ a.2)
    ((gbKeys ts).map (fun k => (k, (amountsOf (groupOf ts k)).sum)))).take 5

def sortedDates (g : List Tx) : List ℤ :=
  List.insertionSort (fun a b : ℤ => a ≤ b) (g.filterMap Tx.date)

def diffsAux : List ℤ → List ℤ
  | a :: b :: rest => (b - a) :: diffsAux (b :: rest)
  | _ => []

/-- Interval gaps in whole days between consecutive dated transactions. -/
def gapsOf (g : List Tx) : List ℤ := diffsAux (sortedDates g)

/-- Average days between payments per counterparty (lines 101-107),
emitted only for groups with at least two dated transactions. -/
def payment_frequency (ts : List Tx) : List (String × ℚ) :=
  (gbKeys ts).filterMap (fun k =>
    let ds := sortedDates (groupOf ts k)
    if 1 < ds.length then
      some (k, roundq2 (qmean ((diffsAux ds).map (fun z => (z : ℚ)))))
    else none)

/-- Membership of a row in the duplicate-grouping triple: groupby keys
are the resolved counterparty and the raw amount and currency columns;
a null in any component keeps the row out of every group. -/
def tripleMatches (c : String) (a : RawVal) (cu : String) (t : Tx) : Bool :=
  t.counterparty = some c && t.amountRaw = some a && t.currencyRaw = some cu

/-- One emitted duplicate-candidate row (lines 117-124). -/
structure DupRow where
  bookingDate : Option String
  counterparty : String
  amount : RawVal
  currency : String
  iban : Option String
  remittance : Option String
deriving DecidableEq

def mkDupRow (t : Tx) (c : String) (a : RawVal) (cu : String) : DupRow :=
  { bookingDate := t.date.map fmtDate, counterparty := c, amount := a,
    currency := cu, iban := t.iban, remittance := t.remittance }

/-- The duplicate row contributed by one table row, if its triple is
fully present and shared by more than one row. -/
def dupF (ts : List Tx) (t : Tx) : Option DupRow :=
  match t.counterparty, t.amountRaw, t.currencyRaw with
  | some c, some a, some cu =>
      if 1 < ts.countP (tripleMatches c a cu) then some (mkDupRow t c a cu) else none
  | _, _, _ => none

/-- groupby(triple).filter(len > 1) then row projection (lines 110-124):
every member of a multi-row triple group, in original table order. -/
def potential_duplicates (ts : List Tx) : List DupRow :=
  ts.filterMap (dupF ts)

def popVar (l : List ℚ) : ℚ :=
  ((l.map (fun a => (a - qmean l) ^ 2)).sum) / l.length

def sampleVar (l : List ℚ) : ℚ :=
  ((l.map (fun a => (a - qmean l) ^ 2)).sum) / ((l.length : ℚ) - 1)

/-- pandas Series.std (ddof=1): NaN (none) below two values. -/
noncomputable def sampleStd (l : List ℚ) : Option ℝ :=
  if l.length < 2 then none else some (Real.sqrt ((sampleVar l : ℚ) : ℝ))

structure OutRow where
  counterparty : String
  amount : ℚ
  mean : ℚ
  std_dev : ℝ
  z_score : ℝ
  currency : Option String
  bookingDate : Option String
  reason : String

/-- Outlier rows of one group (lines 129-146): only groups with more
than two members, population standard deviation, a strictly positive
deviation, and absolute z-score above 2.5. -/
noncomputable def outGroup (k : String) (g : List Tx) : List OutRow :=
  if 2 < g.length then
    let m := qmean (amountsOf g)
    let pv := popVar (amountsOf g)
    if 0 < pv then
      let std : ℝ := Real.sqrt ((pv : ℚ) : ℝ)
      g.filterMap (fun t =>
        let z : ℝ := (((t.amount : ℚ) : ℝ) - ((m : ℚ) : ℝ)) / std
        if 2.5 < |z| then
          some { counterparty := k, amount := t.amount, mean := roundq2 m,
                 std_dev := round2R std, z_score := round2R z,
                 currency := t.currency, bookingDate := t.date.map fmtDate,
                 reason := if 0 < z then "Unusually high transaction amount"
                           else "Unusually low transaction amount" }
        else none)
    else []
  else []

noncomputable def outliers (ts : List Tx) : List OutRow :=
  (gbKeys ts).foldr (fun k acc => outGroup k (groupOf ts k) ++ acc) []

/-- Sort a group by booking date ascending, missing dates last, stably,
as sort_values("bookingDate") does. -/
def dateLeB (a b : Tx) : Bool :=
  match a.date, b.date with
  | some x, some y => decide (x ≤ y)
  | some _, none => true
  | none, o => o.isNone

def sortByDate (g : List Tx) : List Tx :=
  List.insertionSort (fun a b : Tx => dateLeB a b = true) g

/-- The distinguished exceptions the pipeline can raise. -/
inductive Crash where
  | keyError
  | modeError
deriving DecidableEq

/-- Series.mode of the weekday names: distinct non-null values of
maximal multiplicity, returned sorted ascending. -/
def modeSorted (vs : List String) : List String :=
  let mx := ((dedupFA vs).map (fun v => vs.count v)).foldr max 0
  List.insertionSort (fun a b : String => strLeB a b = true)
    ((dedupFA vs).filter (fun v => vs.count v = mx))

/-- Lines 166-170: day_name over the group (null for undated rows), the
emptiness guard that only fires for an empty column, then mode()[0],
which raises when every date is missing so the mode is empty. -/
def most_active_day (g : List Tx) : Except Crash (Option String) :=
  let names : List (Option String) := g.map (fun t => t.date.map dayName)
  if names.isEmpty then .ok none
  else
    match modeSorted (names.filterMap id) with
    | [] => .error .modeError
    | m :: _ => .ok (some m)

/-- Numerator of the least-squares slope of amount against index; the
denominator is positive for two or more points, so the sign of the
fitted slope is the sign of this quantity. -/
def slopeNum (ys : List ℚ) : ℚ :=
  let xs : List ℚ := (List.range ys.length).map (fun i => (i : ℚ))
  (ys.length : ℚ) * (List.zipWith (fun x y => x * y) xs ys).sum - xs.sum * ys.sum

def trendLabel (g : List Tx) : String :=
  if 2 ≤ g.length then
    if 0 < slopeNum (amountsOf g) then "increasing" else "decreasing"
  else "stable"

def avgIntervalOf (g : List Tx) : Option ℚ :=
  let gaps := gapsOf g
  if gaps.isEmpty then none
  else some (roundq2 (qmean (gaps.map (fun z => (z : ℚ)))))

/-- abs(std_amount / mean_amount) if the mean is nonzero, else 0; none
is NaN, propagated from a single-member standard deviation. -/
noncomputable def volatilityOf (amts : List ℚ) : Option ℝ :=
  if qmean amts = 0 then some 0
  else (sampleStd amts).map (fun s => |s / ((qmean amts : ℚ) : ℝ)|)

/-- diffs.std() / avg_interval when the rounded average interval is
truthy and positive, else 0; none is NaN. -/
noncomputable def irregularityOf (gaps : List ℤ) (avgI : Option ℚ) : Option ℝ :=
  match avgI with
  | some a =>
      if 0 < a then (sampleStd (gaps.map (fun z => (z : ℚ)))).map (fun s => s / ((a : ℚ) : ℝ))
      else some 0
  | none => some 0

/-- Python min(100, x) where x may be NaN: the comparison with NaN is
false, so the first argument is kept. -/
noncomputable def pymin100 (x : Option ℝ) : ℝ :=
  match x with
  | none => 100
  | some v => min 100 v

/-- risk_score (lines 172-174): round(min(100, (volatility +
irregularity) * 50), 2) with NaN-propagating arithmetic. -/
noncomputable def risk_score (amts : List ℚ) (gaps : List ℤ) (avgI : Option ℚ) : ℝ :=
  round2R (pymin100 (do
    let v ← volatilityOf amts
    let i ← irregularityOf gaps avgI
    pure ((v + i) * 50)))

structure Profile where
  avg_amount : ℚ
  consistency : Option ℝ
  avg_interval_days : Option ℚ
  trend : String
  most_active_day : Option String
  risk_score : ℝ

/-- One behavioral profile (lines 151-183); the only failure point is
mode()[0] inside most_active_day. -/
noncomputable def profileOf (g : List Tx) : Except Crash Profile :=
  let gs := sortByDate g
  let amts := amountsOf gs
  let m := qmean amts
  let avgI := avgIntervalOf gs
  match most_active_day gs with
  | .error e => .error e
  | .ok mad =>
    .ok { avg_amount := roundq2 m
          consistency :=
            if m = 0 then none
            else (sampleStd amts).map (fun s => round2R (s / ((m : ℚ) : ℝ)))
          avg_interval_days := avgI
          trend := trendLabel gs
          most_active_day := mad
          risk_score := risk_score amts (gapsOf gs) avgI }

noncomputable def profAux (ts : List Tx) : List String → Except Crash (List (String × Profile))
  | [] => .ok []
  | k :: ks =>
    match profileOf (groupOf ts k) with
    | .error e => .error e
    | .ok p =>
      match profAux ts ks with
      | .error e => .error e
      | .ok rest => .ok ((k, p) :: rest)

noncomputable def behavioral_profiles (ts : List Tx) : Except Crash (List (String × Profile)) :=
  profAux ts (gbKeys ts)

def dateStrOf (t : Tx) : Option String := t.date.map fmtDate

/-- Daily sums keyed by formatted date, ascending, undated rows dropped. -/
def daily_totals (ts : List Tx) : List (String × ℚ) :=
  (List.insertionSort (fun a b : String => strLeB a b = true)
    (dedupFA (ts.filterMap dateStrOf))).map
    (fun d => (d, ((ts.filter (fun t => dateStrOf t = some d)).map Tx.amount).sum))

structure Summary where
  total_income : ℚ
  total_expense : ℚ
  net_result : ℚ
  currency : Option String

structure Report where
  summary : Summary
  daily_totals : List (String × ℚ)
  top_debtors : List (String × ℚ)
  payment_frequency : List (String × ℚ)
  potential_duplicates : List DupRow
  outliers : List OutRow
  behavioral_profiles : List (String × Profile)
  transaction_count : ℕ

/-- Either the distinguished error object or a full report. -/
inductive AnalyzeResult where
  | noTransactions
  | report (r : Report)

structure Input where
  booked : List Record
  pending : List Record

/-- The report-building part of analyze_transactions, after the df.empty
short-circuit. The duplicate grouping raises KeyError when the raw
amount or currency column is absent from the batch (line 110 names the
columns literally); the profiler raises through mode()[0] (line 167). -/
noncomputable def buildReport (pick : List String → Option String) (rows : List Record) :
    Except Crash Report :=
  let ts := resolveAll pick (normalize rows)
  match (if ts.all (fun t => t.amountRaw = none) || ts.all (fun t => t.currencyRaw = none)
         then (Except.error Crash.keyError : Except Crash (List DupRow))
         else Except.ok (potential_duplicates ts)) with
  | .error e => .error e
  | .ok dups =>
    match behavioral_profiles ts with
    | .error e => .error e
    | .ok profs =>
      .ok { summary :=
              { total_income := roundq2 (totalIncome ts)
                total_expense := roundq2 (totalExpense ts)
                net_result := roundq2 (netResult ts)
                currency := match ts with | [] => some "BGN" | t :: _ => t.currency }
            daily_totals := daily_totals ts
            top_debtors := top_debtors ts
            payment_frequency := payment_frequency ts
            potential_duplicates := dups
            outliers := outliers ts
            behavioral_profiles := profs
            transaction_count := ts.length }

/-- analyze_transactions (lines 33-202): booked and pending records are
concatenated; an empty flattened frame (no rows, or rows contributing
no columns) returns the error object; otherwise the full report is
assembled, with the two uncaught exceptions surfaced as errors. -/
noncomputable def analyze_transactions (pick : List String → Option String) (inp : Input) :
    Except Crash AnalyzeResult :=
  let rows := inp.booked ++ inp.pending
  if rows.all recordHasNoKeys then .ok .noTransactions
  else (buildReport pick rows).map AnalyzeResult.report

/-! Concrete inputs used to exercise the pipeline. -/

/-- A zero-amount transaction with a non-blank creditor and an AZV
fragment in the remittance text. -/
def txC1 : Tx :=
  { txBase with amount := 0, creditorName := some "Bob",
                remittance := some "pay AZV-Jane, ref" }

/-- A transaction whose remittance text holds two distinct AZV
fragments, B first, A second. -/
def txC3 : Tx := { txBase with remittance := some "x AZV-B, AZV-A" }

/-- One record with a creditor and raw amount and currency but no
booking date: its counterparty group has a row yet no dated
transactions. -/
def recC2 : Record :=
  { amountRaw := some (.str "-5"), currencyRaw := some "EUR",
    bookingDateRaw := none, creditorName := some "Alice", debtorName := none,
    remittance := none, iban := none, extraKeys := false }

/-- A record carrying only a currency key. -/
def recEUR : Record := { Record.emptyRec with currencyRaw := some "EUR" }

/-- A row with a full duplicate-grouping triple. -/
def t4a : Tx :=
  { txBase with counterparty := some "K", amountRaw := some (.str "9"),
                currencyRaw := some "EUR" }

/-- Counterparty B appearing first in the table, tied amount. -/
def t6b : Tx := { txBase with counterparty := some "B", amount := 5 }

/-- Counterparty A appearing second in the table, tied amount. -/
def t6a : Tx := { txBase with counterparty := some "A", amount := 5 }

/-- A single-member counterparty group with a nonzero mean. -/
def g8 : List Tx :=
  [{ txBase with amount := 7, date := some 0, counterparty := some "K" }]

/-- Profile extracted from a successful profileOf result. -/
noncomputable def profOrDefault (g : List Tx) : Profile :=
  match profileOf g with
  | .ok p => p
  | .error _ =>
      { avg_amount := 0, consistency := none, avg_interval_days := none,
        trend := "", most_active_day := none, risk_score := 0 }

instance : IsTotal (String × ℚ) (fun a b => b.2 ≤ a.2) :=
  ⟨fun a b => le_total b.2 a.2⟩

instance : IsTrans (String × ℚ) (fun a b => b.2 ≤ a.2) :=
  ⟨fun _ _ _ h1 h2 => le_trans h2 h1⟩

/-! Helper lemmas. -/

theorem mem_of_dedupFAAux {a : String} :
    ∀ (seen l : List String), a ∈ dedupFAAux seen l → a ∈ l := by
  intro seen l
  induction l generalizing seen with
  | nil => simp [dedupFAAux]
  | cons x xs ih =>
    simp only [dedupFAAux]
    split
    · exact fun h => List.mem_cons_of_mem x (ih _ h)
    · intro h
      rcases List.mem_cons.mp h with h | h
      · exact h ▸ List.mem_cons_self x xs
      · exact List.mem_cons_of_mem x (ih _ h)

theorem mem_of_dedupFA {a : String} {l : List String} (h : a ∈ dedupFA l) : a ∈ l :=
  mem_of_dedupFAAux [] l h

theorem validPick_head : ValidPick List.head? := by
  intro l
  refine ⟨List.head?_eq_none_iff, ?_⟩
  intro c hc
  cases l with
  | nil => cases hc
  | cons y ys =>
    simp only [List.head?] at hc
    injection hc with h
    exact h ▸ List.mem_cons_self y ys

theorem validPick_getLast : ValidPick List.getLast? := by
  intro l
  refine ⟨List.getLast?_eq_none_iff, ?_⟩
  intro c hc
  exact List.mem_of_mem_getLast? (by simp [hc])

/-! C9: income/expense partition of the net result. -/

/-- C9: net_result equals total_income plus total_expense exactly:
the type column partitions the rows into amount-positive income and the
rest, both sums keeping the original sign of each amount. -/
theorem C9_net_partition (ts : List Tx) :
    netResult ts = totalIncome ts + totalExpense ts := by
  induction ts with
  | nil => simp [netResult, totalIncome, totalExpense]
  | cons t ts ih =>
    by_cases h : 0 < t.amount
    · simp [netResult, totalIncome, totalExpense, txType, List.filter_cons, h] at ih ⊢
      linarith
    · have h2 : t.amount ≤ 0 := le_of_not_lt h
      simp [netResult, totalIncome, totalExpense, txType, List.filter_cons, h, h2] at ih ⊢
      linarith

/-! C5: the empty-input short-circuit. -/

/-- C5 counterexample: a non-empty record list whose single record has
no keys still yields the error object, because json_normalize gives it
no columns and df.empty is then true; the claim promised a full report
for every non-empty list. -/
theorem C5_counterexample :
    ([Record.emptyRec] : List Record) ≠ [] ∧
    analyze_transactions List.head? { booked := [Record.emptyRec], pending := [] } =
      .ok .noTransactions :=
  ⟨by simp, by rfl⟩

/-- C5 amended: the analysis returns the error object exactly when the
flattened frame is empty, which happens when the concatenated record
list is empty or when every record carries no keys at all; any batch
with a keyed record never produces the error object. -/
theorem C5_amended (pick : List String → Option String) (inp : Input) :
    analyze_transactions pick inp = .ok .noTransactions ↔
      (inp.booked ++ inp.pending).all recordHasNoKeys = true := by
  unfold analyze_transactions
  by_cases h : (inp.booked ++ inp.pending).all recordHasNoKeys = true
  · simp [h]
  · simp only [h, if_false, Bool.false_eq_true, iff_false]
    cases buildReport pick (inp.booked ++ inp.pending) <;> simp [Except.map]

/-! C2: most_active_day on a group with no dated transactions. -/

/-- C2: on a batch whose only transaction resolves to a counterparty
but has no booking date, the pipeline raises through mode()[0] instead
of reporting a null most_active_day: the emptiness guard tests the
day_name column, which has one null row and is not empty, while the
mode of an all-null column is empty and indexing it at 0 fails. -/
theorem C2_mode_crash :
    analyze_transactions List.head? { booked := [recC2], pending := [] } =
      .error Crash.modeError := by rfl

/-! C1: counterparty resolution at amount zero. -/

/-- C1 counterexample: at amount zero with a non-blank creditor name
and an AZV fragment in the remittance text, the resolver returns the
AZV fragment Jane, not the creditor Bob the claimed outgoing rule would
choose: the code tests amount > 0 then amount < 0, so zero enters
neither name branch. -/
theorem C1_counterexample :
    (resolveTx List.head? txC1).counterparty = some "Jane" ∧
    nonBlankB txC1.creditorName = true ∧ ("Jane" : String) ≠ "Bob" := by decide

/-- C1 amended: for a zero-amount transaction the name fields are never
consulted: resolution is unchanged when both names are erased, falling
directly to AZV extraction from the remittance text. -/
theorem C1_amended (pick : List String → Option String) (t : Tx) (h : t.amount = 0) :
    (resolveTx pick t).counterparty =
      (resolveTx pick { t with creditorName := none, debtorName := none }).counterparty := by
  simp [resolveTx, resolveName, h, nonBlankB]

/-- C1 witness: the amended statement at the concrete zero-amount row. -/
theorem C1_witness :
    txC1.amount = 0 ∧
    (resolveTx List.head? txC1).counterparty =
      (resolveTx List.head? { txC1 with creditorName := none, debtorName := none }).counterparty :=
  ⟨by decide, C1_amended List.head? txC1 (by decide)⟩

/-! C3: order of the extracted AZV fragments. -/

/-- C3 counterexample: with remittance text holding fragments B then A,
a valid enumeration of the Python set (its iteration order is
unspecified) yields A as element zero, while the fragment first
appearing in the string is B: the claimed first-appearance choice is
not what the code guarantees. -/
theorem C3_counterexample :
    ValidPick List.getLast? ∧
    (resolveTx List.getLast? txC3).counterparty = some "A" ∧
    (extract_azv_entities txC3.remittance).head? = some "B" ∧
    ("A" : String) ≠ "B" :=
  ⟨validPick_getLast, by decide, by decide, by decide⟩

/-- C3 amended: when the name fields fail, the resolver assigns some
element of the set of distinct trimmed fragments (which one is
unspecified, being Python set iteration order), null exactly when that
set is empty, and deterministically the unique fragment when the set is
a singleton. -/
theorem C3_amended (pick : List String → Option String) (hp : ValidPick pick) (t : Tx)
    (h : resolveName t = none) :
    ((resolveTx pick t).counterparty = none ↔ extract_azv_entities t.remittance = []) ∧
    (∀ c, (resolveTx pick t).counterparty = some c →
      c ∈ extract_azv_entities t.remittance) ∧
    (∀ c, extract_azv_entities t.remittance = [c] →
      (resolveTx pick t).counterparty = some c) := by
  have hres : (resolveTx pick t).counterparty =
      (if (extract_azv_entities t.remittance).isEmpty then none
       else pick (extract_azv_entities t.remittance)) := by
    simp [resolveTx, h]
  by_cases he : extract_azv_entities t.remittance = []
  · rw [hres]
    simp [he]
  · have hne : (extract_azv_entities t.remittance).isEmpty = false := by
      simpa [List.isEmpty_iff] using he
    rw [hres, hne]
    simp only [Bool.false_eq_true, if_false]
    refine ⟨?_, ?_, ?_⟩
    · simp [(hp (extract_azv_entities t.remittance)).1, he]
    · exact fun c hc => (hp (extract_azv_entities t.remittance)).2 c hc
    · intro c hc
      rcases hh : pick (extract_azv_entities t.remittance) with _ | c2
      · exact absurd ((hp (extract_azv_entities t.remittance)).1.mp hh) he
      · have hm := (hp (extract_azv_entities t.remittance)).2 c2 hh
        rw [hc, List.mem_singleton] at hm
        exact congrArg some hm

/-- C3 witness: the amended statement at the two-fragment row under the
canonical enumeration. -/
theorem C3_witness :
    resolveName txC3 = none ∧
    (∀ c, (resolveTx List.head? txC3).counterparty = some c →
      c ∈ extract_azv_entities txC3.remittance) :=
  ⟨by decide, (C3_amended List.head? validPick_head txC3 (by decide)).2.1⟩

/-! C7: per-record currency fallback. -/

/-- C7 counterexample: in a batch where another record carries a
currency, a record missing the currency field gets null, not the BGN
fallback: df.get returns the existing column and leaves the per-record
gap as NaN. -/
theorem C7_counterexample :
    (normalize [recEUR, Record.emptyRec]).map Tx.currency = [some "EUR", none] ∧
    (none : Option String) ≠ some "BGN" := by decide

/-- C7 amended: a record missing the currency field is normalized to
the BGN fallback only when no record in the batch carries the currency
key (the column is absent); otherwise it gets null. -/
theorem C7_amended (rows : List Record) (i : ℕ) (hi : i < rows.length)
    (hnone : (rows.getD i Record.emptyRec).currencyRaw = none) :
    ((normalize rows).getD i txBase).currency =
      (if rows.all (fun r => r.currencyRaw = none) then some "BGN" else none) := by
  have hge : rows.getD i Record.emptyRec = rows[i] := List.getD_eq_getElem rows Record.emptyRec hi
  have h1 : ((normalize rows).getD i txBase) =
      normalizeRecord (rows.all (fun r => r.currencyRaw = none)) rows[i] := by
    rw [normalize, List.getD_eq_getElem?_getD, List.getElem?_map,
      List.getElem?_eq_getElem hi]
    rfl
  rw [h1, normalizeRecord]
  rw [hge] at hnone
  by_cases hall : rows.all (fun r => r.currencyRaw = none) = true
  · simp [hall]
  · simp only [Bool.not_eq_true] at hall
    simp [hall, hnone]

/-- C7 witness: the amended statement at index 1 of the two-record
batch whose first record carries a currency. -/
theorem C7_witness :
    (1 < ([recEUR, Record.emptyRec] : List Record).length) ∧
    ((normalize [recEUR, Record.emptyRec]).getD 1 txBase).currency =
      (if ([recEUR, Record.emptyRec] : List Record).all (fun r => r.currencyRaw = none)
       then some "BGN" else none) :=
  ⟨by decide, C7_amended [recEUR, Record.emptyRec] 1 (by decide) (by decide)⟩

/-! C4: duplicate clusters. -/

/-- C4: every member of a triple group of size at least two is emitted
as a duplicate row, and a triple group of size one contributes no row
carrying its triple. -/
theorem C4_duplicate_clusters (ts : List Tx) (c : String) (a : RawVal) (cu : String) :
    (2 ≤ (ts.filter (tripleMatches c a cu)).length →
      ∀ t ∈ ts.filter (tripleMatches c a cu),
        mkDupRow t c a cu ∈ potential_duplicates ts) ∧
    ((ts.filter (tripleMatches c a cu)).length ≤ 1 →
      ∀ d ∈ potential_duplicates ts,
        ¬(d.counterparty = c ∧ d.amount = a ∧ d.currency = cu)) := by
  constructor
  · intro h2 t ht
    rw [List.mem_filter] at ht
    obtain ⟨hts, hm⟩ := ht
    have hc : t.counterparty = some c ∧ t.amountRaw = some a ∧ t.currencyRaw = some cu := by
      simpa [tripleMatches, and_assoc] using hm
    refine List.mem_filterMap.mpr ⟨t, hts, ?_⟩
    have hstep : dupF ts t =
        (if 1 < ts.countP (tripleMatches c a cu) then some (mkDupRow t c a cu) else none) := by
      rw [dupF, hc.1, hc.2.1, hc.2.2]
    rw [hstep, if_pos]
    rw [List.countP_eq_length_filter]
    omega
  · intro h1 d hd hprops
    obtain ⟨t, hts, hft⟩ := List.mem_filterMap.mp hd
    rcases h1' : t.counterparty with _ | c2
    · rw [dupF, h1'] at hft
      cases hft
    · rcases h2' : t.amountRaw with _ | a2
      · rw [dupF, h1', h2'] at hft
        cases hft
      · rcases h3' : t.currencyRaw with _ | cu2
        · rw [dupF, h1', h2', h3'] at hft
          cases hft
        · have hstep : dupF ts t =
              (if 1 < ts.countP (tripleMatches c2 a2 cu2)
               then some (mkDupRow t c2 a2 cu2) else none) := by
            rw [dupF, h1', h2', h3']
          rw [hstep] at hft
          by_cases hcnt : 1 < ts.countP (tripleMatches c2 a2 cu2)
          · rw [if_pos hcnt] at hft
            injection hft with hft
            have hc2 : c2 = c := by rw [← hft] at hprops; exact hprops.1
            have ha2 : a2 = a := by rw [← hft] at hprops; exact hprops.2.1
            have hcu2 : cu2 = cu := by rw [← hft] at hprops; exact hprops.2.2
            rw [hc2, ha2, hcu2, List.countP_eq_length_filter] at hcnt
            omega
          · rw [if_neg hcnt] at hft
            cases hft

/-- C4 witness: both rows of a concrete two-row triple group are
emitted. -/
theorem C4_witness :
    2 ≤ (([t4a, t4a] : List Tx).filter (tripleMatches "K" (.str "9") "EUR")).length ∧
    mkDupRow t4a "K" (.str "9") "EUR" ∈ potential_duplicates [t4a, t4a] :=
  ⟨by decide,
   (C4_duplicate_clusters [t4a, t4a] "K" (.str "9") "EUR").1 (by decide) t4a (by decide)⟩

/-! C6: top_debtors shape and ordering. -/

theorem top6_eval : top_debtors [t6b, t6a] = [("A", 5), ("B", 5)] := by
  have h1 : gbKeys [t6b, t6a] = ["A", "B"] := by decide
  have g2 : groupOf [t6b, t6a] "A" = [t6a] := by decide
  have g3 : groupOf [t6b, t6a] "B" = [t6b] := by decide
  have h2 : (amountsOf (groupOf [t6b, t6a] "A")).sum = 5 := by
    rw [g2]; norm_num [amountsOf, t6a, txBase]
  have h3 : (amountsOf (groupOf [t6b, t6a] "B")).sum = 5 := by
    rw [g3]; norm_num [amountsOf, t6b, txBase]
  rw [top_debtors, h1]
  norm_num [h2, h3, List.insertionSort, List.orderedInsert]

/-- C6 counterexample: two counterparties with tied sums, B first in
the table, come out in the order A then B: pandas groupby sorts its
keys ascending before the value sort, so ties do not retain input
grouping order. -/
theorem C6_counterexample :
    ([t6b, t6a] : List Tx).filterMap Tx.counterparty = ["B", "A"] ∧
    top_debtors [t6b, t6a] = [("A", 5), ("B", 5)] ∧
    top_debtors [t6b, t6a] ≠ [("B", 5), ("A", 5)] := by
  refine ⟨by decide, top6_eval, ?_⟩
  rw [top6_eval]
  decide

/-- C6 amended: top_debtors has at most five entries, is sorted
descending by summed amount, and every key is a non-null counterparty
of some input row; the order among tied sums follows the sorted groupby
keys, not input grouping order, and is not part of this statement. -/
theorem C6_amended (ts : List Tx) :
    (top_debtors ts).length ≤ 5 ∧
    List.Sorted (fun a b : String × ℚ => b.2 ≤ a.2) (top_debtors ts) ∧
    (∀ kv ∈ top_debtors ts, ∃ t ∈ ts, t.counterparty = some kv.1) := by
  refine ⟨?_, ?_, ?_⟩
  · rw [top_debtors, List.length_take]
    omega
  · exact List.Pairwise.sublist (List.take_sublist 5 _)
      (List.sorted_insertionSort (fun a b : String × ℚ => b.2 ≤ a.2) _)
  · intro kv hkv
    have h1 : kv ∈ List.insertionSort (fun a b : String × ℚ => b.2 ≤ a.2)
        ((gbKeys ts).map (fun k => (k, (amountsOf (groupOf ts k)).sum))) :=
      List.Sublist.mem hkv (List.take_sublist 5 _)
    have h2 : kv ∈ (gbKeys ts).map (fun k => (k, (amountsOf (groupOf ts k)).sum)) :=
      (List.perm_insertionSort _ _).mem_iff.mp h1
    obtain ⟨k, hk, hkv2⟩ := List.mem_map.mp h2
    have h3 : k ∈ dedupFA (ts.filterMap Tx.counterparty) :=
      (List.perm_insertionSort _ _).mem_iff.mp hk
    obtain ⟨t, ht, hct⟩ := List.mem_filterMap.mp (mem_of_dedupFA h3)
    refine ⟨t, ht, ?_⟩
    rw [hct, ← hkv2]

/-- C6 witness: the key A of the concrete tied batch is a resolved
counterparty of some input row. -/
theorem C6_witness :
    ∃ t ∈ ([t6b, t6a] : List Tx), t.counterparty = some ("A", (5 : ℚ)).1 :=
  (C6_amended [t6b, t6a]).2.2 ("A", 5) (by rw [top6_eval]; decide)

/-! C10: rows with a null counterparty are invisible to the grouped
outputs. -/

theorem filterMap_cp_filterSome (ts : List Tx) :
    (ts.filter (fun t => t.counterparty.isSome)).filterMap Tx.counterparty =
      ts.filterMap Tx.counterparty := by
  induction ts with
  | nil => rfl
  | cons t ts ih =>
    cases h : t.counterparty with
    | none => simp [List.filter_cons, List.filterMap_cons, h, ih]
    | some c => simp [List.filter_cons, List.filterMap_cons, h, ih]

theorem gbKeys_filterSome (ts : List Tx) :
    gbKeys (ts.filter (fun t => t.counterparty.isSome)) = gbKeys ts := by
  unfold gbKeys
  rw [filterMap_cp_filterSome]

theorem groupOf_filterSome (ts : List Tx) (k : String) :
    groupOf (ts.filter (fun t => t.counterparty.isSome)) k = groupOf ts k := by
  unfold groupOf
  induction ts with
  | nil => rfl
  | cons t ts ih =>
    cases h : t.counterparty with
    | none => simp [List.filter_cons, h, ih]
    | some c => simp [List.filter_cons, h, ih]

theorem countP_triple_filterSome (ts : List Tx) (c : String) (a : RawVal) (cu : String) :
    (ts.filter (fun t => t.counterparty.isSome)).countP (tripleMatches c a cu) =
      ts.countP (tripleMatches c a cu) := by
  induction ts with
  | nil => rfl
  | cons t ts ih =>
    cases h : t.counterparty with
    | none => simp [List.filter_cons, List.countP_cons, tripleMatches, h, ih]
    | some c2 => simp [List.filter_cons, List.countP_cons, tripleMatches, h, ih]

theorem dupF_filterSome (ts : List Tx) (t : Tx) :
    dupF (ts.filter (fun x => x.counterparty.isSome)) t = dupF ts t := by
  unfold dupF
  cases t.counterparty <;> cases t.amountRaw <;> cases t.currencyRaw <;>
    simp [countP_triple_filterSome]

theorem filterMap_of_none_on_dropped {β : Type} (p : Tx → Bool) (f : Tx → Option β)
    (ts : List Tx) (hf : ∀ t, p t = false → f t = none) :
    (ts.filter p).filterMap f = ts.filterMap f := by
  induction ts with
  | nil => rfl
  | cons t ts ih =>
    cases hp : p t with
    | false => simp [List.filter_cons, hp, List.filterMap_cons, hf t hp, ih]
    | true => simp [List.filter_cons, hp, List.filterMap_cons, ih]

theorem pd_filterSome (ts : List Tx) :
    potential_duplicates (ts.filter (fun t => t.counterparty.isSome)) =
      potential_duplicates ts := by
  unfold potential_duplicates
  rw [List.filterMap_congr (fun t _ => dupF_filterSome ts t)]
  apply filterMap_of_none_on_dropped
  intro t hp
  rcases h : t.counterparty with _ | c
  · rw [dupF, h]
  · rw [h] at hp
    simp at hp

theorem freq_filterSome (ts : List Tx) :
    payment_frequency (ts.filter (fun t => t.counterparty.isSome)) =
      payment_frequency ts := by
  unfold payment_frequency
  rw [gbKeys_filterSome]
  exact List.filterMap_congr (fun k _ => by rw [groupOf_filterSome])

theorem top_filterSome (ts : List Tx) :
    top_debtors (ts.filter (fun t => t.counterparty.isSome)) = top_debtors ts := by
  unfold top_debtors
  rw [gbKeys_filterSome]
  congr 1
  congr 1
  exact List.map_congr_left (fun k _ => by rw [groupOf_filterSome])

theorem foldr_groups_congr (F : String → List Tx → List OutRow) (ts : List Tx) :
    ∀ ks : List String,
      ks.foldr (fun k acc =>
        F k (groupOf (ts.filter (fun t => t.counterparty.isSome)) k) ++ acc) [] =
      ks.foldr (fun k acc => F k (groupOf ts k) ++ acc) [] := by
  intro ks
  induction ks with
  | nil => rfl
  | cons k ks ih =>
    simp only [List.foldr_cons]
    rw [groupOf_filterSome, ih]

theorem outliers_filterSome (ts : List Tx) :
    outliers (ts.filter (fun t => t.counterparty.isSome)) = outliers ts := by
  unfold outliers
  rw [gbKeys_filterSome]
  exact foldr_groups_congr outGroup ts _

theorem profAux_filterSome (ts : List Tx) (ks : List String) :
    profAux (ts.filter (fun t => t.counterparty.isSome)) ks = profAux ts ks := by
  induction ks with
  | nil => rfl
  | cons k ks ih =>
    simp only [profAux, groupOf_filterSome, ih]

theorem profiles_filterSome (ts : List Tx) :
    behavioral_profiles (ts.filter (fun t => t.counterparty.isSome)) =
      behavioral_profiles ts := by
  unfold behavioral_profiles
  rw [gbKeys_filterSome, profAux_filterSome]

/-- C10: dropping every row whose resolved counterparty is null leaves
top_debtors, payment_frequency, potential_duplicates, outliers and
behavioral_profiles unchanged: each groups by the counterparty (alone
or inside the duplicate triple) and pandas groupby drops null keys. -/
theorem C10_null_counterparty_excluded (ts : List Tx) :
    top_debtors (ts.filter (fun t => t.counterparty.isSome)) = top_debtors ts ∧
    payment_frequency (ts.filter (fun t => t.counterparty.isSome)) = payment_frequency ts ∧
    potential_duplicates (ts.filter (fun t => t.counterparty.isSome)) =
      potential_duplicates ts ∧
    outliers (ts.filter (fun t => t.counterparty.isSome)) = outliers ts ∧
    behavioral_profiles (ts.filter (fun t => t.counterparty.isSome)) =
      behavioral_profiles ts :=
  ⟨top_filterSome ts, freq_filterSome ts, pd_filterSome ts,
   outliers_filterSome ts, profiles_filterSome ts⟩

/-! C8: the risk score formula stays within its cap. -/

theorem sampleStd_nonneg {l : List ℚ} {s : ℝ} (h : sampleStd l = some s) : 0 ≤ s := by
  unfold sampleStd at h
  split at h
  · cases h
  · injection h with h
    rw [← h]
    exact Real.sqrt_nonneg _

theorem volatility_nonneg {amts : List ℚ} {v : ℝ} (h : volatilityOf amts = some v) :
    0 ≤ v := by
  unfold volatilityOf at h
  by_cases hm : qmean amts = 0
  · rw [if_pos hm] at h
    injection h with h
    rw [← h]
  · rw [if_neg hm] at h
    rcases hs : sampleStd amts with _ | s
    · rw [hs] at h
      cases h
    · rw [hs] at h
      simp only [Option.map_some'] at h
      injection h with h
      rw [← h]
      exact abs_nonneg _

theorem irregularity_nonneg {gaps : List ℤ} {avgI : Option ℚ} {i : ℝ}
    (h : irregularityOf gaps avgI = some i) : 0 ≤ i := by
  rcases avgI with _ | a <;> simp only [irregularityOf] at h
  · injection h with h
    rw [← h]
  · by_cases ha : (0 : ℚ) < a
    · rw [if_pos ha] at h
      rcases hs : sampleStd (gaps.map (fun z => (z : ℚ))) with _ | s
      · rw [hs] at h
        cases h
      · rw [hs] at h
        simp only [Option.map_some'] at h
        injection h with h
        rw [← h]
        have hs0 : 0 ≤ s := sampleStd_nonneg hs
        have ha2 : (0 : ℝ) < ((a : ℚ) : ℝ) := by exact_mod_cast ha
        exact div_nonneg hs0 ha2.le
    · rw [if_neg ha] at h
      injection h with h
      rw [← h]

theorem rheR_cases (y : ℝ) :
    rheR y = ⌊y⌋ ∨ (rheR y = ⌊y⌋ + 1 ∧ 1 / 2 ≤ y - ⌊y⌋) := by
  simp only [rheR]
  split_ifs with h1 h2 h3
  · exact Or.inl rfl
  · exact Or.inr ⟨rfl, le_of_lt h2⟩
  · exact Or.inl rfl
  · exact Or.inr ⟨rfl, not_lt.mp h1⟩

theorem round2R_bounds {x : ℝ} (h0 : 0 ≤ x) (h100 : x ≤ 100) :
    0 ≤ round2R x ∧ round2R x ≤ 100 := by
  unfold round2R
  have hy0 : (0 : ℝ) ≤ x * 100 := by nlinarith
  have hy1 : x * 100 ≤ 10000 := by nlinarith
  have hf0 : (0 : ℤ) ≤ ⌊x * 100⌋ := Int.floor_nonneg.mpr hy0
  have hf0R : (0 : ℝ) ≤ (⌊x * 100⌋ : ℝ) := by exact_mod_cast hf0
  have hfle : (⌊x * 100⌋ : ℝ) ≤ x * 100 := Int.floor_le _
  rcases rheR_cases (x * 100) with h | ⟨h, hf⟩
  · rw [h]
    constructor
    · exact div_nonneg hf0R (by norm_num)
    · rw [div_le_iff₀ (by norm_num : (0 : ℝ) < 100)]
      linarith
  · rw [h]
    have h95 : (⌊x * 100⌋ : ℝ) ≤ 9999.5 := by linarith
    have hlt : ⌊x * 100⌋ < 10000 := by
      exact_mod_cast lt_of_le_of_lt h95 (by norm_num : (9999.5 : ℝ) < 10000)
    have hone : (⌊x * 100⌋ : ℝ) + 1 ≤ 10000 := by
      have : ⌊x * 100⌋ + 1 ≤ 10000 := hlt
      exact_mod_cast this
    constructor
    · push_cast
      apply div_nonneg _ (by norm_num : (0 : ℝ) ≤ 100)
      linarith
    · push_cast
      rw [div_le_iff₀ (by norm_num : (0 : ℝ) < 100)]
      linarith

theorem risk_score_bounds (amts : List ℚ) (gaps : List ℤ) (avgI : Option ℚ) :
    0 ≤ risk_score amts gaps avgI ∧ risk_score amts gaps avgI ≤ 100 := by
  unfold risk_score
  apply round2R_bounds <;>
  · rcases hv : volatilityOf amts with _ | v
    · simp [hv, pymin100]
    · rcases hi : irregularityOf gaps avgI with _ | i
      · simp [hv, hi, pymin100]
      · have hv0 : 0 ≤ v := volatility_nonneg hv
        have hi0 : 0 ≤ i := irregularity_nonneg hi
        simp only [hv, hi, Option.some_bind, pure, pymin100]
        first
        | exact le_min (by norm_num) (by positivity)
        | exact min_le_left _ _

/-- C8: every behavioral profile carries a risk score within zero and
one hundred: the volatility and irregularity summands are nonnegative
wherever defined, a NaN sum makes Python min keep its first argument
100, and the final two-decimal rounding preserves the interval in all
cases, groups of size one included. -/
theorem C8_risk_in_range (g : List Tx) (p : Profile) (h : profileOf g = .ok p) :
    0 ≤ p.risk_score ∧ p.risk_score ≤ 100 := by
  simp only [profileOf] at h
  rcases hm : most_active_day (sortByDate g) with e | mad
  · rw [hm] at h
    cases h
  · rw [hm] at h
    injection h with h
    rw [← h]
    exact risk_score_bounds _ _ _

/-- C8 witness: the profile of a concrete single-member group exists
and its risk score is within the cap. -/
theorem C8_witness :
    profileOf g8 = .ok (profOrDefault g8) ∧
    0 ≤ (profOrDefault g8).risk_score ∧ (profOrDefault g8).risk_score ≤ 100 := by
  have h : profileOf g8 = .ok (profOrDefault g8) := rfl
  exact ⟨h, (C8_risk_in_range g8 (profOrDefault g8) h).1,
         (C8_risk_in_range g8 (profOrDefault g8) h).2⟩

end FlaskAnalyse
